import Mathlib

/-!
Shallow embedding of the cooperative-runtime teaching repository
(chapters 7 and 8): the poll-based future model, the join-all and
sequential composite task shapes, the leaf HTTP I/O task, the
reactor's waker table and event loop, and the executor's scheduling
loop.  Each definition is translated from the corresponding Rust
source item; theorems settle the specification's claims about them.
-/

/-- Result of polling a future: `PollState<T>` from
`ch07/c-async-await/src/future.rs` (identical in the other chapters). -/
inductive PollState (T : Type) where
  | Ready (t : T)
  | NotReady
deriving Repr, DecidableEq

/-- A sub-future is modelled by its state type `σ` together with a poll
function; `poll` consumes the state and returns the advanced state plus
a `PollState` result (Rust's `fn poll(&mut self) -> PollState<Output>`). -/
def PollFn (σ T : Type) : Type := σ → σ × PollState T

/-- The `JoinAll<F>` struct of `ch07/c-async-await/src/future.rs`:
a vector of `(completed-flag, future)` pairs plus `finished_count`. -/
structure JoinAll (σ : Type) where
  futures : List (Bool × σ)
  finished_count : Nat
deriving Repr, DecidableEq

/-- `join_all` of `ch07/c-async-await/src/future.rs`: pairs every future
with a `false` flag and starts `finished_count` at 0. -/
def join_all (fs : List σ) : JoinAll σ :=
  { futures := fs.map (fun f => (false, f)), finished_count := 0 }

/-- The slot scan inside `JoinAll::poll` (the `for (finished, fut) in
self.futures.iter_mut()` loop): skips completed slots, polls every
other slot, marks the flag on `Ready`; returns the updated slot list
together with the number of slots newly finished on this scan
(the total added to `finished_count`). -/
def pollSlots (impl : PollFn σ T) : List (Bool × σ) → List (Bool × σ) × Nat
  | [] => ([], 0)
  | (finished, fut) :: rest =>
      if finished then
        let (rest', c) := pollSlots impl rest
        ((finished, fut) :: rest', c)
      else
        match impl fut with
        | (fut', PollState.Ready _) =>
            let (rest', c) := pollSlots impl rest
            ((true, fut') :: rest', c + 1)
        | (fut', PollState.NotReady) =>
            let (rest', c) := pollSlots impl rest
            ((false, fut') :: rest', c)

/-- `JoinAll::poll` of `ch07/c-async-await/src/future.rs`: scan all
slots, then return `Ready(String::new())` exactly when
`finished_count == futures.len()`, else `NotReady`. -/
def JoinAll.poll (impl : PollFn σ String) (j : JoinAll σ) :
    JoinAll σ × PollState String :=
  let (futs', newly) := pollSlots impl j.futures
  let fc := j.finished_count + newly
  ({ futures := futs', finished_count := fc },
   if fc = futs'.length then PollState.Ready "" else PollState.NotReady)

/-- How one slot is updated by the scan of `JoinAll::poll`: a completed
slot is untouched; any other slot is polled, and on `Ready` its flag is
set. -/
def slotUpdate (impl : PollFn σ T) (slot : Bool × σ) : Bool × σ :=
  if slot.1 then slot
  else
    match impl slot.2 with
    | (fut', PollState.Ready _) => (true, fut')
    | (fut', PollState.NotReady) => (false, fut')

/-- Whether a slot finishes during the scan of this poll call. -/
def slotNewlyReady (impl : PollFn σ T) (slot : Bool × σ) : Bool :=
  !slot.1 && (match impl slot.2 with
              | (_, PollState.Ready _) => true
              | (_, PollState.NotReady) => false)

/-! ### The sequential coroutine of `ch07/a-coroutine/src/main.rs` -/

/-- Observable actions the `Coroutine::poll` body performs: the
`println!` calls, the `Http::get` constructions (which stage's sub-task
is built) and the sub-task polls (which stage's sub-task is polled). -/
inductive CoEvent where
  | printed (s : String)
  | constructed (stage : Nat)
  | polledStage (stage : Nat)
deriving Repr, DecidableEq

/-- The `State` enum of `ch07/a-coroutine/src/main.rs`:
`Start`, `Wait1(Box<dyn Future>)`, `Wait2(Box<dyn Future>)`, `Resolved`.
The boxed sub-future is an abstract state `σ`. -/
inductive CoState (σ : Type) where
  | Start
  | Wait1 (fut : σ)
  | Wait2 (fut : σ)
  | Resolved
deriving Repr, DecidableEq

/-- Outcome of one `Coroutine::poll` call: either a normal return (the
updated state plus the returned `PollState<()>`), or a panic (the
`State::Resolved` arm runs `panic!("Polled a resolved future")`). -/
inductive CoResult (σ : Type) where
  | ok (state : CoState σ) (r : PollState Unit)
  | panicked (msg : String)
deriving Repr, DecidableEq

/-- The `State::Wait2` arm of the loop in `Coroutine::poll`: poll the
stage-2 sub-task; on `Ready(txt2)` print it, set the state to `Resolved`
and break `Ready(())`; on `NotReady` break `NotReady`. -/
def pollWait2 (impl : PollFn σ String) (fut2 : σ) : List CoEvent × CoResult σ :=
  match impl fut2 with
  | (_, PollState.Ready txt2) =>
      ([CoEvent.polledStage 2, CoEvent.printed txt2],
       CoResult.ok CoState.Resolved (PollState.Ready ()))
  | (fut2', PollState.NotReady) =>
      ([CoEvent.polledStage 2],
       CoResult.ok (CoState.Wait2 fut2') PollState.NotReady)

/-- The `State::Wait1` arm of the loop in `Coroutine::poll`: poll the
stage-1 sub-task; on `Ready(txt)` print it, construct the stage-2
sub-task (`Http::get("/400/HelloWorld2")`, the abstract `get2`), set the
state to `Wait2` and continue the loop (which immediately polls stage
2); on `NotReady` break `NotReady`. -/
def pollWait1 (impl : PollFn σ String) (get2 : σ) (fut : σ) :
    List CoEvent × CoResult σ :=
  match impl fut with
  | (_, PollState.Ready txt) =>
      let (evs, r) := pollWait2 impl get2
      (CoEvent.polledStage 1 :: CoEvent.printed txt ::
         CoEvent.constructed 2 :: evs, r)
  | (fut', PollState.NotReady) =>
      ([CoEvent.polledStage 1],
       CoResult.ok (CoState.Wait1 fut') PollState.NotReady)

/-- `Coroutine::poll` of `ch07/a-coroutine/src/main.rs`: the
`loop { match self.state { ... } }` body.  `get1` and `get2` are the
sub-futures produced by the two `Http::get` constructions; `impl` is
the sub-future poll function. -/
def Coroutine.poll (impl : PollFn σ String) (get1 get2 : σ) :
    CoState σ → List CoEvent × CoResult σ
  | CoState.Start =>
      let (evs, r) := pollWait1 impl get2 get1
      (CoEvent.printed "Program starting" :: CoEvent.constructed 1 :: evs, r)
  | CoState.Wait1 fut => pollWait1 impl get2 fut
  | CoState.Wait2 fut2 => pollWait2 impl fut2
  | CoState.Resolved => ([], CoResult.panicked "Polled a resolved future")

/-! ### The leaf HTTP I/O tasks (`ch07/a-coroutine/src/http.rs` and
`ch08/b-reactor-executor/src/http.rs`)

A socket `read` call is scripted: each `ReadResult` is the answer the
OS gives to one `stream.read(&mut buff)` call. -/

/-- Error kinds distinguished by the leaf tasks' `match` on `read`:
`ErrorKind::WouldBlock`, `ErrorKind::Interrupted`, and every other kind
(the catch-all `Err(e)` arm). -/
inductive ErrKind where
  | wouldBlock
  | interrupted
  | other (msg : String)
deriving Repr, DecidableEq

/-- One scripted answer to a `read` call: `bytes data` models
`Ok(data.len())` with `data` placed in the scratch buffer (so
`bytes []` is `Ok(0)`, end-of-stream); `err k` models `Err(e)` with
`e.kind() = k`. -/
inductive ReadResult where
  | bytes (data : List Nat)
  | err (k : ErrKind)
deriving Repr, DecidableEq

/-- State of `ch07/a-coroutine/src/http.rs`'s `HttpGetFuture`:
`started` models `stream: Option<TcpStream>` being `Some` (the request
has been written); `buffer` is the accumulated response bytes. -/
structure Http07 where
  started : Bool
  buffer : List Nat
deriving Repr, DecidableEq

/-- Outcome of one ch07 `HttpGetFuture::poll`: a normal return (updated
state, unconsumed script, returned `PollState` whose `Ready` payload is
the accumulated bytes — the source decodes them with
`from_utf8_lossy`), a panic from the catch-all `Err(e)` arm, or `stuck`
when the script supplies no answer for a `read` the code performs
(`stuck` is an artefact of scripting, not a behaviour of the code). -/
inductive Http07Step where
  | ok (st : Http07) (rest : List ReadResult) (r : PollState (List Nat))
  | panicked (k : ErrKind)
  | stuck
deriving Repr, DecidableEq

/-- The read loop of ch07's `HttpGetFuture::poll`: `Ok(0)` breaks
`Ready`, `Ok(n)` appends and continues, `WouldBlock` breaks `NotReady`,
`Interrupted` continues (retries the read), any other error panics. -/
def readLoop07 (buf : List Nat) : List ReadResult → Http07Step
  | [] => Http07Step.stuck
  | ReadResult.bytes [] :: rest =>
      Http07Step.ok { started := true, buffer := buf } rest
        (PollState.Ready buf)
  | ReadResult.bytes (b :: bs) :: rest => readLoop07 (buf ++ b :: bs) rest
  | ReadResult.err ErrKind.wouldBlock :: rest =>
      Http07Step.ok { started := true, buffer := buf } rest PollState.NotReady
  | ReadResult.err ErrKind.interrupted :: rest => readLoop07 buf rest
  | ReadResult.err (ErrKind.other m) :: _ =>
      Http07Step.panicked (ErrKind.other m)

/-- ch07's `HttpGetFuture::poll`: if the stream is not yet set, write
the request and return `NotReady` without reading; otherwise run the
read loop. -/
def http07Poll (st : Http07) (script : List ReadResult) : Http07Step :=
  if st.started = false then
    Http07Step.ok { started := true, buffer := st.buffer } script
      PollState.NotReady
  else
    readLoop07 st.buffer script

/-- Calls the ch08 leaf task makes into the runtime:
`reactor().register(stream, READABLE, id)`,
`reactor().set_waker(waker, id)`, `reactor().deregister(stream, id)`. -/
inductive HttpEvent where
  | registered (id : Nat)
  | setWaker (id : Nat)
  | deregistered (id : Nat)
deriving Repr, DecidableEq

/-- The `HttpGetFuture` struct of `ch08/b-reactor-executor/src/http.rs`:
`started` models `stream: Option<TcpStream>` being `Some`; `buffer`,
`path` and `id` are the struct's remaining fields. -/
structure HttpGetFuture where
  started : Bool
  buffer : List Nat
  path : String
  id : Nat
deriving Repr, DecidableEq

/-- Outcome of one ch08 `HttpGetFuture::poll`, as `Http07Step` but
carrying the runtime-call events alongside (see `HttpGetFuture.poll`). -/
inductive HttpStep where
  | ok (st : HttpGetFuture) (rest : List ReadResult) (r : PollState (List Nat))
  | panicked (k : ErrKind)
  | stuck
deriving Repr, DecidableEq

/-- The read loop of ch08's `HttpGetFuture::poll`: `Ok(0)` deregisters
from the reactor and breaks `Ready`; `Ok(n)` appends and continues;
`WouldBlock` stores the current waker (`set_waker`) and breaks
`NotReady`; the catch-all `Err(e)` arm — which in this chapter also
catches `ErrorKind::Interrupted` — panics. -/
def readLoop08 (path : String) (id : Nat) (buf : List Nat) :
    List ReadResult → List HttpEvent × HttpStep
  | [] => ([], HttpStep.stuck)
  | ReadResult.bytes [] :: rest =>
      ([HttpEvent.deregistered id],
       HttpStep.ok { started := true, buffer := buf, path := path, id := id }
         rest (PollState.Ready buf))
  | ReadResult.bytes (b :: bs) :: rest => readLoop08 path id (buf ++ b :: bs) rest
  | ReadResult.err ErrKind.wouldBlock :: rest =>
      ([HttpEvent.setWaker id],
       HttpStep.ok { started := true, buffer := buf, path := path, id := id }
         rest PollState.NotReady)
  | ReadResult.err ErrKind.interrupted :: _ =>
      ([], HttpStep.panicked ErrKind.interrupted)
  | ReadResult.err (ErrKind.other m) :: _ =>
      ([], HttpStep.panicked (ErrKind.other m))

/-- ch08's `HttpGetFuture::poll`: on the first poll (`stream.is_none()`)
write the request, register the stream with the reactor under the
task's `id`, store the waker, then fall through into the read loop;
on later polls, run the read loop directly. -/
def HttpGetFuture.poll (st : HttpGetFuture) (script : List ReadResult) :
    List HttpEvent × HttpStep :=
  if st.started = false then
    let (evs, r) := readLoop08 st.path st.id st.buffer script
    (HttpEvent.registered st.id :: HttpEvent.setWaker st.id :: evs, r)
  else
    readLoop08 st.path st.id st.buffer script

/-- Final outcome of repeatedly polling a ch08 leaf task (as the
executor does) over one read script: `pending` means the poll budget
(`fuel`) ran out while the task was still `NotReady`. -/
inductive HttpOutcome where
  | ready (buf : List Nat)
  | panicked (k : ErrKind)
  | stuck
  | pending
deriving Repr, DecidableEq

/-- Poll a ch08 leaf task up to `fuel` times, the way the executor
drives it: stop at `Ready` (the executor then drops the task), keep
polling on `NotReady` with the rest of the script; collect every
runtime-call event of every poll in order. -/
def run08 (st : HttpGetFuture) (script : List ReadResult) :
    Nat → List HttpEvent × HttpOutcome
  | 0 => ([], HttpOutcome.pending)
  | n + 1 =>
      match HttpGetFuture.poll st script with
      | (evs, HttpStep.ok _ _ (PollState.Ready b)) => (evs, HttpOutcome.ready b)
      | (evs, HttpStep.ok st' rest PollState.NotReady) =>
          let (evs2, o) := run08 st' rest n
          (evs ++ evs2, o)
      | (evs, HttpStep.panicked k) => (evs, HttpOutcome.panicked k)
      | (evs, HttpStep.stuck) => (evs, HttpOutcome.stuck)

/-- Whether a run ended with the task `Ready`. -/
def HttpOutcome.isReady : HttpOutcome → Bool
  | HttpOutcome.ready _ => true
  | _ => false

/-- Whether an event is a `register` call (under any interest id). -/
def isReg : HttpEvent → Bool
  | HttpEvent.registered _ => true
  | _ => false

/-- Number of occurrences of one event in a trace. -/
def countEv (evs : List HttpEvent) (e : HttpEvent) : Nat :=
  (evs.filter (fun x => decide (x = e))).length

/-! ### The reactor (`ch08/b-reactor-executor/src/runtime/reactor.rs`) -/

/-- The `Waker` struct of
`ch08/b-reactor-executor/src/runtime/executor.rs`: the bound task id
plus the handle of the executor thread to unpark (the shared
ready-queue reference is passed explicitly where needed). -/
structure WakerM where
  id : Nat
  thread : Nat
deriving Repr, DecidableEq

/-- Association-list model of the `HashMap`s in the runtime (waker
table, task table): lookup by key. -/
def lookupA : List (Nat × α) → Nat → Option α
  | [], _ => none
  | (k, v) :: rest, key => if k = key then some v else lookupA rest key

/-- Association-list removal (`HashMap::remove`). -/
def removeA : List (Nat × α) → Nat → List (Nat × α)
  | [], _ => []
  | (k, v) :: rest, key =>
      if k = key then removeA rest key else (k, v) :: removeA rest key

/-- Association-list insert-or-overwrite (`HashMap::insert`). -/
def insertA (l : List (Nat × α)) (key : Nat) (v : α) : List (Nat × α) :=
  (key, v) :: removeA l key

/-- `Waker::wake`: push the bound task id onto the shared ready queue,
then unpark the executor thread.  Returns the new queue and the list of
unparked threads.  (The ready queue is a `Vec` pushed and popped at its
end; the model's list head is the `Vec`'s end.) -/
def Waker.wake (w : WakerM) (ready_queue : List Nat) : List Nat × List Nat :=
  (w.id :: ready_queue, [w.thread])

/-- One readiness event's handling in `event_loop` of
`ch08/b-reactor-executor/src/runtime/reactor.rs`: resolve the event's
token id in the waker table; if a waker is stored, invoke it; if not,
do nothing.  Returns the ready queue after the event and the threads
unparked by it. -/
def handleEvent (wakers : List (Nat × WakerM)) (id : Nat)
    (ready_queue : List Nat) : List Nat × List Nat :=
  match lookupA wakers id with
  | some w => Waker.wake w ready_queue
  | none => (ready_queue, [])

/-- The `Reactor` struct: the waker table and the `next_id` counter
(the `mio` registry is not modelled — registration calls appear as
`HttpEvent`s instead). -/
structure ReactorM where
  wakers : List (Nat × WakerM)
  next_id : Nat
deriving Repr, DecidableEq

/-- `Reactor::next_id`: `fetch_add(1, Relaxed)` — returns the current
counter and increments it. -/
def ReactorM.nextId (r : ReactorM) : Nat × ReactorM :=
  (r.next_id, { r with next_id := r.next_id + 1 })

/-- `Reactor::set_waker`: always overwrite the waker stored for `id`. -/
def ReactorM.setWakerEntry (r : ReactorM) (w : WakerM) (id : Nat) : ReactorM :=
  { r with wakers := insertA r.wakers id w }

/-- The `reactor()` accessor of
`ch08/b-reactor-executor/src/runtime/reactor.rs`:
`REACTOR.get().expect("Called outside an runtime context")`.  The
global `OnceLock<Reactor>` is the `Option` argument; `Except.error`
models the panic of `expect`. -/
def reactorGet : Option ReactorM → Except String ReactorM
  | some r => Except.ok r
  | none => Except.error "Called outside an runtime context"

/-- `HttpGetFuture::new` of `ch08/b-reactor-executor/src/http.rs`
(reached via `Http::get`): calls `reactor().next_id()` at construction
time, then builds the future with `stream: None`, an empty buffer, the
path and the allocated id.  Returns the future plus the updated global
reactor state, or the panic message of `reactor()` when the global is
unset. -/
def HttpGetFuture.new (global : Option ReactorM) (path : String) :
    Except String (HttpGetFuture × Option ReactorM) :=
  match reactorGet global with
  | Except.error m => Except.error m
  | Except.ok r =>
      let (id, r') := r.nextId
      Except.ok ({ started := false, buffer := [], path := path, id := id },
                 some r')

/-! ### The executor (`ch08/b-reactor-executor/src/runtime/executor.rs`) -/

/-- What the scheduling loop does to individual tasks: polled a task's
future, or dropped it because its poll returned `Ready`. -/
inductive ExecEvent where
  | polled (id : Nat)
  | resolved (id : Nat)
deriving Repr, DecidableEq

/-- The `ExecutorCore` fields relevant to scheduling: the task table
(`tasks`), the shared ready queue (list head = `Vec` end), and the
`next_id` counter. -/
structure ExecState (σ : Type) where
  tasks : List (Nat × σ)
  ready_queue : List Nat
  next_id : Nat
deriving Repr, DecidableEq

/-- `spawn` of `ch08/b-reactor-executor/src/runtime/executor.rs`:
insert the future under a fresh id, push that id onto the ready queue,
bump `next_id`. -/
def execSpawn (st : ExecState σ) (f : σ) : ExecState σ :=
  { tasks := insertA st.tasks st.next_id f,
    ready_queue := st.next_id :: st.ready_queue,
    next_id := st.next_id + 1 }

/-- The inner `while let Some(id) = self.pop_ready()` loop of
`Executor::block_on`: pop an id; if `get_future` finds no task under it
(a spurious wakeup), `continue`; otherwise remove the task, poll it
with a fresh waker, and on `NotReady` reinsert it, on `Ready` drop it.
Returns the task table after the queue is drained plus the trace of
polls/resolutions. -/
def drainLoop (impl : PollFn σ String) (tasks : List (Nat × σ)) :
    List Nat → List (Nat × σ) × List ExecEvent
  | [] => (tasks, [])
  | id :: rest =>
      match lookupA tasks id with
      | none => drainLoop impl tasks rest
      | some t =>
          match impl t with
          | (_, PollState.Ready _) =>
              let (ts, evs) := drainLoop impl (removeA tasks id) rest
              (ts, ExecEvent.polled id :: ExecEvent.resolved id :: evs)
          | (t', PollState.NotReady) =>
              let (ts, evs) :=
                drainLoop impl (insertA (removeA tasks id) id t') rest
              (ts, ExecEvent.polled id :: evs)

/-- What the outer loop of `block_on` does after draining ready work:
`park` the executor's OS thread (`thread::park()`), or `exit` the loop
(after which `block_on` returns). -/
inductive OuterAction where
  | parked
  | exited
deriving Repr, DecidableEq

/-- One iteration of the outer `loop` of `Executor::block_on`: drain
the ready queue, then check `task_count`; if it is positive, park the
thread; otherwise break out of the loop. -/
def blockOnStep (impl : PollFn σ String) (st : ExecState σ) :
    ExecState σ × List ExecEvent × OuterAction :=
  let (tasks', evs) := drainLoop impl st.tasks st.ready_queue
  if tasks'.length > 0 then
    ({ tasks := tasks', ready_queue := [], next_id := st.next_id },
     evs, OuterAction.parked)
  else
    ({ tasks := tasks', ready_queue := [], next_id := st.next_id },
     evs, OuterAction.exited)

/-! ### Concrete sub-future implementations used to witness theorems -/

/-- A trivial sub-future over `Unit` that is never ready. -/
def implU : PollFn Unit String := fun u => (u, PollState.NotReady)

/-- A sub-future over `Bool` that is ready exactly when its state is
`true`, producing the text "T". -/
def implC : PollFn Bool String := fun b =>
  if b then (b, PollState.Ready "T") else (b, PollState.NotReady)

/-! ## Theorems -/

theorem pollSlots_eq (impl : PollFn σ T) (l : List (Bool × σ)) :
    pollSlots impl l =
      (l.map (slotUpdate impl), (l.filter (slotNewlyReady impl)).length) := by
  induction l with
  | nil => rfl
  | cons s rest ih =>
      obtain ⟨finished, fut⟩ := s
      by_cases hf : finished
      · subst hf
        simp [pollSlots, ih, slotUpdate, slotNewlyReady, List.filter]
      · simp only [Bool.not_eq_true] at hf
        subst hf
        rcases him : impl fut with ⟨fut', r⟩
        cases r with
        | Ready t =>
            simp [pollSlots, him, ih, slotUpdate, slotNewlyReady, List.filter]
        | NotReady =>
            simp [pollSlots, him, ih, slotUpdate, slotNewlyReady, List.filter]

theorem pollSlots_length (impl : PollFn σ T) (l : List (Bool × σ)) :
    (pollSlots impl l).1.length = l.length := by
  rw [pollSlots_eq]; simp

/-- C1: each call to `JoinAll::poll` polls every sub-task whose
completed flag is not yet set (every slot is updated by `slotUpdate`,
which applies the sub-task's poll to each unset slot, even after an
earlier slot returned `NotReady`), marks the flag and adds one to the
completed count for each sub-task that returns `Ready` on this call,
and returns `Ready` exactly when the completed count equals the number
of slots, `NotReady` otherwise — for every slot/flag configuration,
hence regardless of the order in which slots resolve. -/
theorem joinAll_poll_spec {σ : Type} (impl : PollFn σ String) (j : JoinAll σ) :
    (JoinAll.poll impl j).1.futures = j.futures.map (slotUpdate impl) ∧
    (JoinAll.poll impl j).1.finished_count
      = j.finished_count + (j.futures.filter (slotNewlyReady impl)).length ∧
    ((JoinAll.poll impl j).2 = PollState.Ready ""
      ↔ (JoinAll.poll impl j).1.finished_count = j.futures.length) ∧
    ((JoinAll.poll impl j).2 = PollState.NotReady
      ↔ (JoinAll.poll impl j).1.finished_count ≠ j.futures.length) := by
  have h := pollSlots_eq impl j.futures
  refine ⟨by simp [JoinAll.poll, h], by simp [JoinAll.poll, h], ?_, ?_⟩ <;>
  · simp only [JoinAll.poll, h]
    by_cases hc : j.finished_count
        + (j.futures.filter (slotNewlyReady impl)).length = j.futures.length
    · simp [hc]
    · simp [hc]

/-- C10: the `Ready` payload of `JoinAll::poll` is always the empty
string (`String::new()`) — sub-task outputs are discarded, never
forwarded — and `join_all` of the empty vector yields a future whose
very first poll returns `Ready("")`. -/
theorem joinAll_output_empty_string :
    (∀ (σ : Type) (impl : PollFn σ String) (j : JoinAll σ),
        (JoinAll.poll impl j).2 = PollState.Ready ""
          ∨ (JoinAll.poll impl j).2 = PollState.NotReady) ∧
    (∀ (σ : Type) (impl : PollFn σ String),
        JoinAll.poll impl (join_all ([] : List σ))
          = ({ futures := [], finished_count := 0 }, PollState.Ready "")) := by
  constructor
  · intro σ impl j
    have h := pollSlots_eq impl j.futures
    simp only [JoinAll.poll, h]
    by_cases hc : j.finished_count
        + (j.futures.filter (slotNewlyReady impl)).length = j.futures.length
    · left; simp [hc]
    · right; simp [hc]
  · intro σ impl
    rfl

/-- C7: polling the sequential composite task in the `Resolved` state
panics ("Polled a resolved future"); it never returns `Ready` or
`NotReady`. -/
theorem poll_resolved_panics :
    ∀ (σ : Type) (impl : PollFn σ String) (get1 get2 : σ),
      Coroutine.poll impl get1 get2 CoState.Resolved
        = ([], CoResult.panicked "Polled a resolved future") ∧
      ∀ (evs : List CoEvent) (st : CoState σ) (r : PollState Unit),
        Coroutine.poll impl get1 get2 CoState.Resolved ≠ (evs, CoResult.ok st r) := by
  intro σ impl get1 get2
  refine ⟨rfl, ?_⟩
  intro evs st r h
  simp [Coroutine.poll] at h

/-- C9: `HttpGetFuture::new` (reached from `Http::get`) allocates its
interest id by calling the global `reactor()` at construction time:
before `Reactor::start` has initialized the global, construction
panics with "Called outside an runtime context"; after it, the future
is built with `stream: None`, an empty buffer, and the id taken from
the reactor's `next_id` counter, which is incremented. -/
theorem httpGetFuture_new_reactor_spec :
    (∀ path : String,
        HttpGetFuture.new none path
          = Except.error "Called outside an runtime context") ∧
    (∀ (r : ReactorM) (path : String),
        HttpGetFuture.new (some r) path
          = Except.ok
              ({ started := false, buffer := [], path := path, id := r.next_id },
               some { wakers := r.wakers, next_id := r.next_id + 1 })) :=
  ⟨fun _ => rfl, fun _ _ => rfl⟩

/-- C6: one iteration of `block_on`'s outer loop always leaves the
ready queue drained empty, parks the executor's OS thread exactly when
the task table still holds at least one pending task, and exits the
loop (after which `block_on` returns) exactly when the task table is
empty after draining ready work. -/
theorem blockOn_park_exit_spec {σ : Type} (impl : PollFn σ String)
    (st : ExecState σ) :
    (blockOnStep impl st).1.ready_queue = [] ∧
    ((blockOnStep impl st).2.2 = OuterAction.parked
      ↔ (blockOnStep impl st).1.tasks ≠ []) ∧
    ((blockOnStep impl st).2.2 = OuterAction.exited
      ↔ (blockOnStep impl st).1.tasks = []) := by
  rcases h : drainLoop impl st.tasks st.ready_queue with ⟨tasks', evs⟩
  by_cases hl : tasks'.length > 0
  · have hne : tasks' ≠ [] := List.length_pos.mp hl
    simp [blockOnStep, h, hl, hne]
  · have hnil : tasks' = [] := List.length_eq_zero.mp (Nat.eq_zero_of_not_pos hl)
    simp [blockOnStep, h, hl, hnil]

/-- C5: spurious wakeups are non-fatal no-ops in both components — when
the executor pops a ready-queue id with no matching task-table entry,
the drain continues with table and trace unchanged (no task polled,
resolved or double-resolved); when the reactor's event loop sees a
readiness event whose interest id has no stored waker, the ready queue
is unchanged and no thread is unparked. -/
theorem spurious_wakeup_noop :
    (∀ (σ : Type) (impl : PollFn σ String) (tasks : List (Nat × σ))
        (id : Nat) (rest : List Nat),
        lookupA tasks id = none →
        drainLoop impl tasks (id :: rest) = drainLoop impl tasks rest) ∧
    (∀ (wakers : List (Nat × WakerM)) (id : Nat) (q : List Nat),
        lookupA wakers id = none → handleEvent wakers id q = (q, [])) := by
  constructor
  · intro σ impl tasks id rest h
    simp [drainLoop, h]
  · intro wakers id q h
    simp [handleEvent, h]

/-- Witness for C5 at concrete inputs: the empty task table and the
empty waker table miss every id. -/
theorem spurious_wakeup_noop_witness :
    drainLoop implU [] (5 :: []) = drainLoop implU [] [] ∧
    handleEvent [] 3 [2] = ([2], []) :=
  ⟨spurious_wakeup_noop.1 Unit implU [] 5 [] rfl,
   spurious_wakeup_noop.2 [] 3 [2] rfl⟩

/-- C2: on any poll of the sequential composite task in which the
current stage's sub-task returns `NotReady`, the poll returns
`NotReady` immediately — the state stays at the same stage and the
event trace shows that no later stage's sub-task was constructed or
polled during that call; when the current sub-task returns `Ready`, the
continuation runs with its output (the text is printed) and the state
advances to the next stage (whose sub-task is then built and polled
within the same call) or to `Resolved`, returning `Ready`. -/
theorem coroutine_sequential_short_circuit {σ : Type}
    (impl : PollFn σ String) (get1 get2 : σ) :
    (∀ s1 s1', impl s1 = (s1', PollState.NotReady) →
       Coroutine.poll impl get1 get2 (CoState.Wait1 s1)
         = ([CoEvent.polledStage 1],
            CoResult.ok (CoState.Wait1 s1') PollState.NotReady) ∧
       CoEvent.constructed 2 ∉ (Coroutine.poll impl get1 get2 (CoState.Wait1 s1)).1 ∧
       CoEvent.polledStage 2 ∉ (Coroutine.poll impl get1 get2 (CoState.Wait1 s1)).1) ∧
    (∀ s1 s1' txt, impl s1 = (s1', PollState.Ready txt) →
       Coroutine.poll impl get1 get2 (CoState.Wait1 s1)
         = (CoEvent.polledStage 1 :: CoEvent.printed txt :: CoEvent.constructed 2
              :: (pollWait2 impl get2).1,
            (pollWait2 impl get2).2)) ∧
    (∀ s2 s2', impl s2 = (s2', PollState.NotReady) →
       Coroutine.poll impl get1 get2 (CoState.Wait2 s2)
         = ([CoEvent.polledStage 2],
            CoResult.ok (CoState.Wait2 s2') PollState.NotReady)) ∧
    (∀ s2 s2' txt2, impl s2 = (s2', PollState.Ready txt2) →
       Coroutine.poll impl get1 get2 (CoState.Wait2 s2)
         = ([CoEvent.polledStage 2, CoEvent.printed txt2],
            CoResult.ok CoState.Resolved (PollState.Ready ()))) := by
  refine ⟨?_, ?_, ?_, ?_⟩
  · intro s1 s1' hp
    refine ⟨?_, ?_, ?_⟩ <;> simp [Coroutine.poll, pollWait1, hp]
  · intro s1 s1' txt hp
    simp [Coroutine.poll, pollWait1, hp]
  · intro s2 s2' hp
    simp [Coroutine.poll, pollWait2, hp]
  · intro s2 s2' txt2 hp
    simp [Coroutine.poll, pollWait2, hp]

/-- Witness for C2 at concrete inputs, using the `implC` sub-future
(`false` polls `NotReady`, `true` polls `Ready "T"`). -/
theorem coroutine_sequential_short_circuit_witness :
    (Coroutine.poll implC true false (CoState.Wait1 false)
       = ([CoEvent.polledStage 1],
          CoResult.ok (CoState.Wait1 false) PollState.NotReady)) ∧
    CoEvent.constructed 2 ∉ (Coroutine.poll implC true false (CoState.Wait1 false)).1 ∧
    CoEvent.polledStage 2 ∉ (Coroutine.poll implC true false (CoState.Wait1 false)).1 ∧
    (Coroutine.poll implC true false (CoState.Wait1 true)
       = (CoEvent.polledStage 1 :: CoEvent.printed "T" :: CoEvent.constructed 2
            :: (pollWait2 implC false).1,
          (pollWait2 implC false).2)) ∧
    (Coroutine.poll implC true false (CoState.Wait2 false)
       = ([CoEvent.polledStage 2],
          CoResult.ok (CoState.Wait2 false) PollState.NotReady)) ∧
    (Coroutine.poll implC true false (CoState.Wait2 true)
       = ([CoEvent.polledStage 2, CoEvent.printed "T"],
          CoResult.ok CoState.Resolved (PollState.Ready ()))) := by
  obtain ⟨hA, hB, hC, hD⟩ := coroutine_sequential_short_circuit implC true false
  obtain ⟨a1, a2, a3⟩ := hA false false rfl
  exact ⟨a1, a2, a3, hB true true "T" rfl, hC false false rfl, hD true true "T" rfl⟩

/-- C4 counterexample: in the ch08 leaf task, a read reporting
`ErrorKind::Interrupted` is not retried — it falls into the catch-all
`Err(e)` arm and panics, ending the poll, at this concrete input. -/
theorem http08_interrupted_panics_cex :
    HttpGetFuture.poll
        { started := true, buffer := [], path := "/600/HelloWorld1", id := 1 }
        [ReadResult.err ErrKind.interrupted]
      = ([], HttpStep.panicked ErrKind.interrupted) := rfl

/-- C4 amended: the ch07 leaf task (`ch07/a-coroutine/src/http.rs`)
retries an interrupted read immediately and transparently — its read
loop on a script starting with `Interrupted` equals the loop on the
rest of the script, so the interruption never surfaces and never ends
the poll; the ch08 leaf task (`ch08/b-reactor-executor/src/http.rs`)
has no `Interrupted` arm and instead panics on it. -/
theorem interrupted_retry_ch07_vs_panic_ch08 :
    (∀ (buf : List Nat) (rest : List ReadResult),
        readLoop07 buf (ReadResult.err ErrKind.interrupted :: rest)
          = readLoop07 buf rest) ∧
    (∀ (path : String) (id : Nat) (buf : List Nat) (rest : List ReadResult),
        readLoop08 path id buf (ReadResult.err ErrKind.interrupted :: rest)
          = ([], HttpStep.panicked ErrKind.interrupted)) :=
  ⟨fun _ _ => rfl, fun _ _ _ _ => rfl⟩

/-- C8 counterexample: a ch08 read error other than would-block panics
(unwinding the polling thread) instead of being surfaced as a failed
poll result, at this concrete input. -/
theorem http08_read_error_panics_cex :
    readLoop08 "/400/HelloWorld2" 2 [72]
        [ReadResult.err (ErrKind.other "ConnectionReset")]
      = ([], HttpStep.panicked (ErrKind.other "ConnectionReset")) := rfl

/-- C8 amended: in the ch08 leaf task, a read error other than
would-block makes the task panic — it is neither retried nor surfaced
as a failed poll result (no deregistration, no `ok` return); indeed
`PollState` has only the `Ready` and `NotReady` variants, so no
error-carrying poll result exists to bubble up. -/
theorem read_error_panics_not_surfaced :
    (∀ (path : String) (id : Nat) (buf : List Nat) (m : String)
        (rest : List ReadResult),
        readLoop08 path id buf (ReadResult.err (ErrKind.other m) :: rest)
          = ([], HttpStep.panicked (ErrKind.other m))) ∧
    (∀ (T : Type) (r : PollState T),
        (∃ t, r = PollState.Ready t) ∨ r = PollState.NotReady) := by
  constructor
  · intro _ _ _ _ _
    rfl
  · intro T r
    cases r with
    | Ready t => exact Or.inl ⟨t, rfl⟩
    | NotReady => exact Or.inr rfl

theorem getLast?_cons_of_ne_nil (a : α) (l : List α) (h : l ≠ []) :
    (a :: l).getLast? = l.getLast? := by
  cases l with
  | nil => exact absurd rfl h
  | cons x xs => rfl

theorem countEv_cons (e x : HttpEvent) (evs : List HttpEvent) :
    countEv (x :: evs) e = (if x = e then 1 else 0) + countEv evs e := by
  by_cases hx : x = e <;> simp [countEv, List.filter_cons, hx, Nat.add_comm]

theorem countEv_nil (e : HttpEvent) : countEv [] e = 0 := rfl

theorem countEv_reg_of_filter_nil (evs : List HttpEvent) (j : Nat)
    (h : List.filter isReg evs = []) :
    countEv evs (HttpEvent.registered j) = 0 := by
  unfold countEv
  rw [List.length_eq_zero, List.filter_eq_nil_iff]
  intro a ha hdec
  have ha' : a = HttpEvent.registered j := of_decide_eq_true hdec
  have := List.filter_eq_nil_iff.mp h a ha
  rw [ha'] at this
  exact this rfl

theorem readLoop08_cases (path : String) (id : Nat) :
    ∀ (script : List ReadResult) (buf : List Nat),
      (∃ rest b, readLoop08 path id buf script
          = ([HttpEvent.deregistered id],
             HttpStep.ok { started := true, buffer := b, path := path, id := id }
               rest (PollState.Ready b))) ∨
      (∃ rest b, readLoop08 path id buf script
          = ([HttpEvent.setWaker id],
             HttpStep.ok { started := true, buffer := b, path := path, id := id }
               rest PollState.NotReady)) ∨
      (∃ k, readLoop08 path id buf script = ([], HttpStep.panicked k)) ∨
      readLoop08 path id buf script = ([], HttpStep.stuck) := by
  intro script
  induction script with
  | nil =>
      intro buf
      right; right; right; rfl
  | cons r rest ih =>
      intro buf
      cases r with
      | bytes d =>
          cases d with
          | nil =>
              left; exact ⟨rest, buf, rfl⟩
          | cons b bs =>
              exact ih (buf ++ b :: bs)
      | err k =>
          cases k with
          | wouldBlock =>
              right; left; exact ⟨rest, buf, rfl⟩
          | interrupted =>
              right; right; left; exact ⟨ErrKind.interrupted, rfl⟩
          | other m =>
              right; right; left; exact ⟨ErrKind.other m, rfl⟩

theorem run08_started :
    ∀ (fuel : Nat) (st : HttpGetFuture) (script : List ReadResult),
      st.started = true →
      List.filter isReg (run08 st script fuel).1 = [] ∧
      countEv (run08 st script fuel).1 (HttpEvent.deregistered st.id)
        = (if (run08 st script fuel).2.isReady then 1 else 0) ∧
      ((run08 st script fuel).2.isReady = true →
        (run08 st script fuel).1.getLast? = some (HttpEvent.deregistered st.id)) := by
  intro fuel
  induction fuel with
  | zero =>
      intro st script _
      refine ⟨rfl, rfl, ?_⟩
      intro h
      simp [run08, HttpOutcome.isReady] at h
  | succ n ih =>
      intro st script hst
      have hpoll : HttpGetFuture.poll st script
          = readLoop08 st.path st.id st.buffer script := by
        simp [HttpGetFuture.poll, hst]
      rcases readLoop08_cases st.path st.id script st.buffer with
        ⟨rest, b, heq⟩ | ⟨rest, b, heq⟩ | ⟨k, heq⟩ | heq
      · have hrun : run08 st script (n + 1)
            = ([HttpEvent.deregistered st.id], HttpOutcome.ready b) := by
          simp [run08, hpoll, heq]
        rw [hrun]
        refine ⟨rfl, ?_, ?_⟩
        · simp [countEv, List.filter, HttpOutcome.isReady]
        · intro _; rfl
      · rcases hr : run08 { started := true, buffer := b, path := st.path, id := st.id }
            rest n with ⟨evs2, o⟩
        have hrun : run08 st script (n + 1) = (HttpEvent.setWaker st.id :: evs2, o) := by
          simp [run08, hpoll, heq, hr]
        obtain ⟨ih1, ih2, ih3⟩ :=
          ih { started := true, buffer := b, path := st.path, id := st.id } rest rfl
        rw [hr] at ih1 ih2 ih3
        rw [hrun]
        refine ⟨?_, ?_, ?_⟩
        · simpa [List.filter_cons, isReg] using ih1
        · rw [countEv_cons]
          simpa using ih2
        · intro ho
          have h2 := ih2
          rw [ho] at h2
          simp only [if_pos rfl] at h2
          have hne : evs2 ≠ [] := by
            intro hnil
            rw [hnil, countEv_nil] at h2
            exact absurd h2.symm (by decide)
          rw [getLast?_cons_of_ne_nil _ _ hne]
          exact ih3 ho
      · have hrun : run08 st script (n + 1) = ([], HttpOutcome.panicked k) := by
          simp [run08, hpoll, heq]
        rw [hrun]
        refine ⟨rfl, rfl, ?_⟩
        intro h
        simp [HttpOutcome.isReady] at h
      · have hrun : run08 st script (n + 1) = ([], HttpOutcome.stuck) := by
          simp [run08, hpoll, heq]
        rw [hrun]
        refine ⟨rfl, rfl, ?_⟩
        intro h
        simp [HttpOutcome.isReady] at h

/-- C3: driving a fresh ch08 leaf I/O task to completion (any read
script, any poll budget of at least one poll), the task registers its
interest id with the reactor exactly once — it is the very first
runtime call, made on the first poll when the operation is started —
and deregisters that id exactly once, exactly upon end-of-stream: the
deregistration call occurs (once, as the final runtime call) precisely
when the run ends `Ready`, and never occurs in a run that ends with the
task still pending, panicked, or out of script — in particular never
upon would-block or any other `NotReady` return. -/
theorem http08_register_deregister_once (path : String) (id : Nat)
    (script : List ReadResult) (fuel : Nat) (hf : 0 < fuel) :
    (run08 { started := false, buffer := [], path := path, id := id }
        script fuel).1.head? = some (HttpEvent.registered id) ∧
    countEv (run08 { started := false, buffer := [], path := path, id := id }
        script fuel).1 (HttpEvent.registered id) = 1 ∧
    countEv (run08 { started := false, buffer := [], path := path, id := id }
        script fuel).1 (HttpEvent.deregistered id)
      = (if (run08 { started := false, buffer := [], path := path, id := id }
            script fuel).2.isReady then 1 else 0) ∧
    ((run08 { started := false, buffer := [], path := path, id := id }
        script fuel).2.isReady = true →
      (run08 { started := false, buffer := [], path := path, id := id }
          script fuel).1.getLast? = some (HttpEvent.deregistered id)) := by
  obtain ⟨n, rfl⟩ : ∃ n, fuel = n + 1 :=
    ⟨fuel - 1, (Nat.succ_pred_eq_of_pos hf).symm⟩
  have hpoll : HttpGetFuture.poll
      { started := false, buffer := [], path := path, id := id } script
      = (HttpEvent.registered id :: HttpEvent.setWaker id
           :: (readLoop08 path id [] script).1,
         (readLoop08 path id [] script).2) := by
    simp [HttpGetFuture.poll]
  rcases readLoop08_cases path id script [] with
    ⟨rest, b, heq⟩ | ⟨rest, b, heq⟩ | ⟨k, heq⟩ | heq
  · have hrun : run08 { started := false, buffer := [], path := path, id := id }
        script (n + 1)
        = ([HttpEvent.registered id, HttpEvent.setWaker id,
            HttpEvent.deregistered id], HttpOutcome.ready b) := by
      simp [run08, hpoll, heq]
    rw [hrun]
    refine ⟨rfl, ?_, ?_, ?_⟩
    · simp [countEv, List.filter]
    · simp [countEv, List.filter, HttpOutcome.isReady]
    · intro _; rfl
  · rcases hr : run08 { started := true, buffer := b, path := path, id := id }
        rest n with ⟨evs2, o⟩
    have hrun : run08 { started := false, buffer := [], path := path, id := id }
        script (n + 1)
        = (HttpEvent.registered id :: HttpEvent.setWaker id
             :: HttpEvent.setWaker id :: evs2, o) := by
      simp [run08, hpoll, heq, hr]
    obtain ⟨ih1, ih2, ih3⟩ := run08_started n
      { started := true, buffer := b, path := path, id := id } rest rfl
    rw [hr] at ih1 ih2 ih3
    rw [hrun]
    refine ⟨rfl, ?_, ?_, ?_⟩
    · rw [countEv_cons, countEv_cons, countEv_cons,
        countEv_reg_of_filter_nil evs2 id ih1]
      simp
    · rw [countEv_cons, countEv_cons, countEv_cons]
      simpa using ih2
    · intro ho
      have h2 := ih2
      rw [ho] at h2
      simp only [if_pos rfl] at h2
      have hne : evs2 ≠ [] := by
        intro hnil
        rw [hnil, countEv_nil] at h2
        exact absurd h2.symm (by decide)
      rw [getLast?_cons_of_ne_nil, getLast?_cons_of_ne_nil,
        getLast?_cons_of_ne_nil _ _ hne]
      · exact ih3 ho
      · simp [hne]
      · simp [hne]
  · have hrun : run08 { started := false, buffer := [], path := path, id := id }
        script (n + 1)
        = ([HttpEvent.registered id, HttpEvent.setWaker id],
           HttpOutcome.panicked k) := by
      simp [run08, hpoll, heq]
    rw [hrun]
    refine ⟨rfl, ?_, ?_, ?_⟩
    · simp [countEv, List.filter]
    · simp [countEv, List.filter, HttpOutcome.isReady]
    · intro h; simp [HttpOutcome.isReady] at h
  · have hrun : run08 { started := false, buffer := [], path := path, id := id }
        script (n + 1)
        = ([HttpEvent.registered id, HttpEvent.setWaker id], HttpOutcome.stuck) := by
      simp [run08, hpoll, heq]
    rw [hrun]
    refine ⟨rfl, ?_, ?_, ?_⟩
    · simp [countEv, List.filter]
    · simp [countEv, List.filter, HttpOutcome.isReady]
    · intro h; simp [HttpOutcome.isReady] at h

/-- Witness for C3 at a concrete input: a task with interest id 7 whose
stream would-blocks once, then delivers two bytes, then reaches
end-of-stream, driven with a budget of three polls. -/
theorem http08_register_deregister_once_witness :
    (run08 { started := false, buffer := [], path := "/p", id := 7 }
        [ReadResult.err ErrKind.wouldBlock, ReadResult.bytes [10, 11],
         ReadResult.bytes []] 3).1.head? = some (HttpEvent.registered 7) ∧
    countEv (run08 { started := false, buffer := [], path := "/p", id := 7 }
        [ReadResult.err ErrKind.wouldBlock, ReadResult.bytes [10, 11],
         ReadResult.bytes []] 3).1 (HttpEvent.registered 7) = 1 ∧
    countEv (run08 { started := false, buffer := [], path := "/p", id := 7 }
        [ReadResult.err ErrKind.wouldBlock, ReadResult.bytes [10, 11],
         ReadResult.bytes []] 3).1 (HttpEvent.deregistered 7)
      = (if (run08 { started := false, buffer := [], path := "/p", id := 7 }
            [ReadResult.err ErrKind.wouldBlock, ReadResult.bytes [10, 11],
             ReadResult.bytes []] 3).2.isReady then 1 else 0) ∧
    ((run08 { started := false, buffer := [], path := "/p", id := 7 }
        [ReadResult.err ErrKind.wouldBlock, ReadResult.bytes [10, 11],
         ReadResult.bytes []] 3).2.isReady = true →
      (run08 { started := false, buffer := [], path := "/p", id := 7 }
          [ReadResult.err ErrKind.wouldBlock, ReadResult.bytes [10, 11],
           ReadResult.bytes []] 3).1.getLast? = some (HttpEvent.deregistered 7)) :=
  http08_register_deregister_once "/p" 7
    [ReadResult.err ErrKind.wouldBlock, ReadResult.bytes [10, 11],
     ReadResult.bytes []] 3 (by decide)
